import Mathlib

/-!
# Replay log decoder: the generic field accessor of `MsgHandler`

A shallow embedding of `Tools/Replay/MsgHandler.h`:

* `field_value_for_type_at_offset` (lines 130-173), the type-code dispatch;
* `field_value` (lines 111-127), the by-label accessor;
* `require_field` (lines 30-36), the accessor for required fields.

The header only declares `find_field_info`, `add_field`, `parse_format_fields`,
`size_for_type` and `field_not_found`.  Their bodies are not part of the header,
so `find_field_info`, `add_field` and `parse_format_fields` are modelled from the
specification (each such definition says so), and `field_not_found`, the type
size table and the preamble size are parameters.

Conventions of the embedding:

* `uint8_t *msg` is a bare pointer: a record is what the pointer addresses, a
  map from byte index to byte (`Msg`).  The accessor receives no length.
* `((T*)&msg[offset])[0]` reads `sizeof(T)` bytes in the byte order of the
  machine, which is a parameter (`ByteOrder`).
* A `float` is represented by its IEEE-754 binary32 bit pattern.
* The conversion `(R)x` to the caller's type `R` is a `Conv R`: what `(R)` does
  to an integer value and what it does to a float.  The integer targets and
  the float target are given below; conversions between integers and floats
  are left as parameters of those targets.
* `exit(1)` is the outcome `Outcome.exited 1`; the text printed before it is
  not modelled.
-/

namespace Replay

/-! ## Records and native reads -/

/-- What `uint8_t *msg` addresses: the byte at each index from the pointer. -/
abbrev Msg := Nat → Fin 256

/-- Byte order of the machine the decoder runs on. -/
inductive ByteOrder where
  | little
  | big
deriving DecidableEq, Repr

/-- Unsigned value of the `width` bytes at `offset`, least significant byte first. -/
def load_le (msg : Msg) : Nat → Nat → Nat
  | _, 0 => 0
  | offset, width + 1 => (msg offset).val + 256 * load_le msg (offset + 1) width

/-- Unsigned value of the `width` bytes at `offset`, most significant byte first. -/
def load_be (msg : Msg) : Nat → Nat → Nat
  | _, 0 => 0
  | offset, width + 1 => (msg offset).val * 256 ^ width + load_be msg (offset + 1) width

/-- Unsigned value of the `width` bytes at `offset` in the machine's byte order. -/
def load (bo : ByteOrder) (msg : Msg) (offset width : Nat) : Nat :=
  match bo with
  | .little => load_le msg offset width
  | .big => load_be msg offset width

/-- Two's-complement reading of a `bits`-bit pattern `v`. -/
def to_signed (bits : Nat) (v : Nat) : Int :=
  if v < 2 ^ (bits - 1) then (v : Int) else (v : Int) - 2 ^ bits

/-- Read `((uint8_t*)&msg[offset])[0]`. -/
def read_uint8_t (bo : ByteOrder) (msg : Msg) (offset : Nat) : Int :=
  (load bo msg offset 1 : Nat)

/-- Read `((int16_t*)&msg[offset])[0]`. -/
def read_int16_t (bo : ByteOrder) (msg : Msg) (offset : Nat) : Int :=
  to_signed 16 (load bo msg offset 2)

/-- Read `((uint16_t*)&msg[offset])[0]`. -/
def read_uint16_t (bo : ByteOrder) (msg : Msg) (offset : Nat) : Int :=
  (load bo msg offset 2 : Nat)

/-- Read `((float*)&msg[offset])[0]`, as the bit pattern of the float. -/
def read_float (bo : ByteOrder) (msg : Msg) (offset : Nat) : Nat :=
  load bo msg offset 4

/-- Read `((uint32_t*)&msg[offset])[0]`. -/
def read_uint32_t (bo : ByteOrder) (msg : Msg) (offset : Nat) : Int :=
  (load bo msg offset 4 : Nat)

/-- Read `((int32_t*)&msg[offset])[0]`. -/
def read_int32_t (bo : ByteOrder) (msg : Msg) (offset : Nat) : Int :=
  to_signed 32 (load bo msg offset 4)

/-- Read `((int64_t*)&msg[offset])[0]`. -/
def read_int64_t (bo : ByteOrder) (msg : Msg) (offset : Nat) : Int :=
  to_signed 64 (load bo msg offset 8)

/-- Read `((uint64_t*)&msg[offset])[0]`. -/
def read_uint64_t (bo : ByteOrder) (msg : Msg) (offset : Nat) : Int :=
  (load bo msg offset 8 : Nat)

/-! ## Conversion to the caller's type -/

/-- The conversion `(R)x` of the template parameter `R`: from a value of an
integer type, and from a `float` given by its bit pattern. -/
structure Conv (R : Type) where
  of_int : Int → R
  of_float : Nat → R

/-- Target `R` an unsigned integer type of `w` bits: an integer converts to its
residue modulo `2 ^ w`.  The conversion from `float` is a parameter. -/
def to_unsigned (w : Nat) (of_float : Nat → Nat) : Conv Nat where
  of_int := fun v => (v % 2 ^ w).toNat
  of_float := of_float

/-- Target `R` a signed integer type of `w` bits: an integer converts to the
two's-complement reading of its low `w` bits.  The conversion from `float` is
a parameter. -/
def to_int (w : Nat) (of_float : Nat → Int) : Conv Int where
  of_int := fun v => to_signed w (v % 2 ^ w).toNat
  of_float := of_float

/-- Target `R = float`, as a bit pattern: a `float` converts to itself.  The
conversion from an integer is a parameter. -/
def to_float (of_int : Int → Nat) : Conv Nat where
  of_int := of_int
  of_float := fun bits => bits

/-! ## Outcomes -/

/-- How a call ends: it returns `value` leaving the caller's `ret` in the state
`ret`, or the process ends in `exit(status)` with `ret` in the state `ret`. -/
inductive Outcome (R α : Type) where
  | returned (value : α) (ret : R)
  | exited (status : Nat) (ret : R)
deriving DecidableEq, Repr

/-! ## The field table -/

/-- Capacity of the field table (line 9). -/
def LOGREADER_MAX_FIELDS : Nat := 30

/-- Parsed field information (lines 53-58); `type`, `offset` and `length` are
`uint8_t` in the source. -/
structure format_field_info where
  label : String
  type : Char
  offset : Nat
  length : Nat
deriving DecidableEq, Repr

/-- The state of a handler the accessors use: the entries
`field_info[0 .. next_field - 1]` of the field table (lines 59-61). -/
structure MsgHandler where
  field_info : List format_field_info
deriving DecidableEq, Repr

/-- Number of entries in use (line 61). -/
def MsgHandler.next_field (h : MsgHandler) : Nat := h.field_info.length

/-- Modelled from the spec: the body of `find_field_info` (declared at line 64)
is not in the header.  Section 4.3: "linear scan over at most 30 entries by
exact label match"; the result is the first matching entry, `none` for `NULL`. -/
def find_field_info (h : MsgHandler) (label : String) : Option format_field_info :=
  h.field_info.find? (fun e => e.label == label)

/-! ## The accessors (from the source) -/

/-- The type-code dispatch, lines 130-173. -/
def field_value_for_type_at_offset {R : Type} (cv : Conv R) (bo : ByteOrder)
    (msg : Msg) (type : Char) (offset : Nat) (ret : R) : Outcome R Unit :=
  match type with
  | 'B' => .returned () (cv.of_int (read_uint8_t bo msg offset))
  | 'c' | 'h' => .returned () (cv.of_int (read_int16_t bo msg offset))
  | 'H' => .returned () (cv.of_int (read_uint16_t bo msg offset))
  | 'C' => .returned () (cv.of_int (read_uint16_t bo msg offset))
  | 'f' => .returned () (cv.of_float (read_float bo msg offset))
  | 'I' | 'E' => .returned () (cv.of_int (read_uint32_t bo msg offset))
  | 'L' | 'e' => .returned () (cv.of_int (read_int32_t bo msg offset))
  | 'q' => .returned () (cv.of_int (read_int64_t bo msg offset))
  | 'Q' => .returned () (cv.of_int (read_uint64_t bo msg offset))
  | _ => .exited 1 ret

/-- The generic accessor `field_value<R>`, lines 111-127. -/
def field_value {R : Type} (cv : Conv R) (bo : ByteOrder) (h : MsgHandler)
    (msg : Msg) (label : String) (ret : R) : Outcome R Bool :=
  match find_field_info h label with
  | none => .returned false ret
  | some info =>
    let offset := info.offset
    if offset = 0 then .returned false ret
    else
      match field_value_for_type_at_offset cv bo msg info.type offset ret with
      | .returned _ ret1 => .returned true ret1
      | .exited status ret1 => .exited status ret1

/-- A call `field_not_found(msg, label)` whose body is not in the header:
`fnf msg label` is `some status` when the call ends the process with
`exit(status)` and `none` when it returns.  The call cannot reach `ret`. -/
def call_field_not_found {R : Type} (fnf : Msg → String → Option Nat)
    (msg : Msg) (label : String) (ret : R) : Outcome R Unit :=
  match fnf msg label with
  | some status => .exited status ret
  | none => .returned () ret

/-- The accessor `require_field<R>`, lines 30-36; `fnf` is the behaviour of
`field_not_found`. -/
def require_field {R : Type} (cv : Conv R) (bo : ByteOrder)
    (fnf : Msg → String → Option Nat) (h : MsgHandler)
    (msg : Msg) (label : String) (ret : R) : Outcome R Unit :=
  match field_value cv bo h msg label ret with
  | .returned found ret1 =>
    if !found then call_field_not_found fnf msg label ret1
    else .returned () ret1
  | .exited status ret1 => .exited status ret1

/-! ## The native types as the specification states them -/

/-- A native on-disk type: an unsigned or signed integer of `bits` bits, or
the 32-bit float. -/
inductive NativeType where
  | unsigned (bits : Nat)
  | signed (bits : Nat)
  | float32
deriving DecidableEq, Repr

/-- Width in bytes of a native type. -/
def NativeType.width : NativeType → Nat
  | .unsigned bits => bits / 8
  | .signed bits => bits / 8
  | .float32 => 4

/-- Width in bits of a native type. -/
def NativeType.bits : NativeType → Nat
  | .unsigned bits => bits
  | .signed bits => bits
  | .float32 => 32

/-- The native type of each handled type code, as the specification lists
them: B unsigned 8-bit; c, h signed 16-bit; H, C unsigned 16-bit; I, E unsigned
32-bit; L, e signed 32-bit; q signed 64-bit; Q unsigned 64-bit; f float. -/
def native_type (type : Char) : Option NativeType :=
  if type = 'B' then some (.unsigned 8)
  else if type = 'c' ∨ type = 'h' then some (.signed 16)
  else if type = 'H' ∨ type = 'C' then some (.unsigned 16)
  else if type = 'I' ∨ type = 'E' then some (.unsigned 32)
  else if type = 'L' ∨ type = 'e' then some (.signed 32)
  else if type = 'q' then some (.signed 64)
  else if type = 'Q' then some (.unsigned 64)
  else if type = 'f' then some .float32
  else none

/-- The type codes the specification calls recognized. -/
def handled_types : List Char :=
  ['B', 'c', 'h', 'H', 'C', 'f', 'I', 'E', 'L', 'e', 'q', 'Q']

/-- Native width in bytes of a type code (1, 2, 4 or 8); 0 for a code that is
not handled. -/
def native_width (type : Char) : Nat :=
  match native_type type with
  | some nt => nt.width
  | none => 0

/-- A value of a native type: an integer, or a float as its bit pattern. -/
inductive NativeValue where
  | int (v : Int)
  | float (bits : Nat)
deriving DecidableEq, Repr

/-- The bytes at `offset` reinterpreted in the native type `nt`. -/
def reinterpret (bo : ByteOrder) (msg : Msg) (offset : Nat) : NativeType → NativeValue
  | .unsigned bits => .int (load bo msg offset (bits / 8) : Nat)
  | .signed bits => .int (to_signed bits (load bo msg offset (bits / 8)))
  | .float32 => .float (load bo msg offset 4)

/-- A native value converted to the caller's type. -/
def Conv.convert {R : Type} (cv : Conv R) : NativeValue → R
  | .int v => cv.of_int v
  | .float bits => cv.of_float bits

/-- The integer a native integer type reads at `offset` (0 for the float). -/
def native_int (bo : ByteOrder) (msg : Msg) (offset : Nat) (nt : NativeType) : Int :=
  match reinterpret bo msg offset nt with
  | .int v => v
  | .float _ => 0

/-! ## Writing a record -/

/-- Byte number `k` (in memory order) of the `width`-byte object holding `v`. -/
def byte_of (bo : ByteOrder) (width v k : Nat) : Fin 256 :=
  match bo with
  | .little => Fin.ofNat (v / 256 ^ k)
  | .big => Fin.ofNat (v / 256 ^ (width - 1 - k))

/-- The record `msg` after the `width`-byte object holding `v` is written at
`offset` in the machine's byte order. -/
def store (bo : ByteOrder) (msg : Msg) (offset width v : Nat) : Msg :=
  fun i => if offset ≤ i ∧ i < offset + width then byte_of bo width v (i - offset) else msg i

/-- A record buffer `record` of known length as the accessor sees it: a
pointer to its first byte.  `beyond` is the memory that follows the buffer. -/
def view (record : List (Fin 256)) (beyond : Nat → Fin 256) : Msg :=
  fun i => if h : i < record.length then record.get ⟨i, h⟩ else beyond (i - record.length)

/-- The record whose bytes are all zero. -/
def zero_msg : Msg := fun _ => 0

/-! ## Building the field table (modelled from the specification) -/

/-- A format descriptor as the specification describes it (section 3): name,
type-code string, field-length sequence, comma-separated label list. -/
structure FormatDescriptor where
  name : String
  type_codes : String
  field_lengths : List Nat
  labels : String
deriving DecidableEq, Repr

/-- Why construction of a field table fails. -/
inductive BuildError where
  | ConfigurationError
deriving DecidableEq, Repr

/-- Split a label list at the commas; `cur` is the label read so far, reversed. -/
def split_labels_from : List Char → List Char → List String
  | [], cur => [String.mk cur.reverse]
  | c :: cs, cur =>
    if c = ',' then String.mk cur.reverse :: split_labels_from cs []
    else split_labels_from cs (c :: cur)

/-- The labels of a comma-separated label list, in order. -/
def split_labels (labels : String) : List String :=
  split_labels_from labels.toList []

/-- Modelled from the spec: the body of `add_field` (declared at lines 46-47)
is not in the header.  Section 4.1: "the current running offset is recorded";
the entry is appended to the table.  `_offset` and `length` are `uint8_t`
parameters stored in `uint8_t` members (lines 46-47 and 56-57), so what is
recorded is the value modulo 256. -/
def add_field (h : MsgHandler) (label : String) (type : Char) (offset length : Nat) :
    MsgHandler :=
  { field_info := h.field_info ++ [⟨label, type, offset % 256, length % 256⟩] }

/-- Modelled from the spec: the walk of `parse_format_fields` (declared at line
66, body not in the header).  Section 4.1: "walk type codes and lengths in
lockstep with the same order; ... per field, the current running offset is
recorded then advanced by that field's length"; a type code that the type size
table `size_for_type` does not register (size 0) is a `ConfigurationError`,
and so is a label without a type code or a length. -/
def walk_fields (size_for_type : Char → Nat) :
    List String → List Char → List Nat → Nat → MsgHandler → Except BuildError MsgHandler
  | [], _, _, _, h => .ok h
  | label :: labels, type :: types, length :: lengths, offset, h =>
    if size_for_type type = 0 then .error .ConfigurationError
    else walk_fields size_for_type labels types lengths (offset + length)
      (add_field h label type offset length)
  | _ :: _, _, _, _, _ => .error .ConfigurationError

/-- Modelled from the spec: `parse_format_fields` (declared at line 66, body
not in the header), the Field Index Builder of section 4.1: "fails with
ConfigurationError if field count exceeds 30 or any type code is unregistered
in the Type Size Table ... a running offset starts at the fixed preamble
size".  The type size table and the preamble size are parameters. -/
def parse_format_fields (size_for_type : Char → Nat) (preamble : Nat)
    (d : FormatDescriptor) : Except BuildError MsgHandler :=
  if LOGREADER_MAX_FIELDS < (split_labels d.labels).length then .error .ConfigurationError
  else walk_fields size_for_type (split_labels d.labels) d.type_codes.toList d.field_lengths
    preamble ⟨[]⟩

/-- Modelled from the spec: the type size table (`init_field_types` and
`size_for_type` are only declared in the header).  Section 4.2: the registered
codes are the dispatch set of the accessor, with the sizes of their native
types, "and fixed-length character arrays of at least two distinct sizes"; 0
for an unregistered code.  The specification does not name the character
arrays: they are taken as n, N and Z of 4, 16 and 64 bytes, the codes of the
DataFlash log format. -/
def dataflash_sizes (type : Char) : Nat :=
  if type = 'n' then 4
  else if type = 'N' then 16
  else if type = 'Z' then 64
  else native_width type

/-- The GPS descriptor of the specification's scenario. -/
def gps_format : FormatDescriptor where
  name := "GPS"
  type_codes := "BIHBcLLeeEB"
  field_lengths := [1, 4, 2, 1, 2, 4, 4, 4, 4, 4, 1]
  labels := "Status,TimeMS,Week,NSats,HDop,Lat,Lng,Alt,Spd,GCrs,VZ"

/-- The field table of the GPS descriptor for a 3-byte preamble. -/
def gps_handler : MsgHandler where
  field_info :=
    [⟨"Status", 'B', 3, 1⟩, ⟨"TimeMS", 'I', 4, 4⟩, ⟨"Week", 'H', 8, 2⟩,
     ⟨"NSats", 'B', 10, 1⟩, ⟨"HDop", 'c', 11, 2⟩, ⟨"Lat", 'L', 13, 4⟩,
     ⟨"Lng", 'L', 17, 4⟩, ⟨"Alt", 'e', 21, 4⟩, ⟨"Spd", 'e', 25, 4⟩,
     ⟨"GCrs", 'E', 29, 4⟩, ⟨"VZ", 'B', 33, 1⟩]

/-- The entries a packed, no-padding layout gives the fields from the running
offset `offset` on, with offsets and lengths as 8 bits hold them. -/
def packed_entries : List String → List Char → List Nat → Nat → List format_field_info
  | label :: labels, type :: types, length :: lengths, offset =>
    ⟨label, type, offset % 256, length % 256⟩ ::
      packed_entries labels types lengths (offset + length)
  | _, _, _, _ => []

/-- A descriptor of ten fields, three of them 64-byte and three 16-byte
character arrays, whose first nine fields take 253 bytes. -/
def wide_format : FormatDescriptor where
  name := "WIDE"
  type_codes := "ZZZNNNQIBB"
  field_lengths := [64, 64, 64, 16, 16, 16, 8, 4, 1, 1]
  labels := "S1,S2,S3,N1,N2,N3,T,A,B,C"

/-- A descriptor with 31 one-byte fields. -/
def long_format : FormatDescriptor where
  name := "LONG"
  type_codes := "BBBBBBBBBBBBBBBBBBBBBBBBBBBBBBB"
  field_lengths := List.replicate 31 1
  labels := "F1,F2,F3,F4,F5,F6,F7,F8,F9,F10,F11,F12,F13,F14,F15,F16,F17,F18,F19,F20,F21,F22,F23,F24,F25,F26,F27,F28,F29,F30,F31"

/-! ## Lemmas -/

theorem find_field_info_none (h : MsgHandler) (label : String)
    (hno : ∀ e ∈ h.field_info, e.label ≠ label) : find_field_info h label = none := by
  unfold find_field_info
  rw [List.find?_eq_none]
  intro e he
  simpa using hno e he

theorem find_field_info_some (h : MsgHandler) (label : String) (e : format_field_info)
    (hfind : find_field_info h label = some e) : e ∈ h.field_info ∧ e.label = label := by
  unfold find_field_info at hfind
  exact ⟨List.mem_of_find?_eq_some hfind, by simpa using List.find?_some hfind⟩

theorem native_type_handled (type : Char) :
    type ∈ handled_types ↔ ∃ nt, native_type type = some nt := by
  unfold handled_types native_type
  constructor
  · intro hmem
    simp only [List.mem_cons, List.mem_singleton, List.not_mem_nil, or_false] at hmem
    rcases hmem with h | h | h | h | h | h | h | h | h | h | h | h <;> subst h <;> simp
  · rintro ⟨nt, hnt⟩
    simp only [List.mem_cons, List.mem_singleton, List.not_mem_nil, or_false]
    split_ifs at hnt <;> tauto

theorem dispatch_handled {R : Type} (cv : Conv R) (bo : ByteOrder) (msg : Msg)
    (type : Char) (offset : Nat) (ret : R) (nt : NativeType)
    (hty : native_type type = some nt) :
    field_value_for_type_at_offset cv bo msg type offset ret
      = .returned () (cv.convert (reinterpret bo msg offset nt)) := by
  unfold native_type at hty
  split_ifs at hty with h1 h2 h3 h4 h5 h6 h7 h8 <;>
    simp only [Option.some.injEq] at hty <;> subst hty
  · subst h1; rfl
  · rcases h2 with h | h <;> subst h <;> rfl
  · rcases h3 with h | h <;> subst h <;> rfl
  · rcases h4 with h | h <;> subst h <;> rfl
  · rcases h5 with h | h <;> subst h <;> rfl
  · subst h6; rfl
  · subst h7; rfl
  · subst h8; rfl

theorem dispatch_unhandled {R : Type} (cv : Conv R) (bo : ByteOrder) (msg : Msg)
    (type : Char) (offset : Nat) (ret : R) (hty : native_type type = none) :
    field_value_for_type_at_offset cv bo msg type offset ret = .exited 1 ret := by
  unfold native_type at hty
  split_ifs at hty with h1 h2 h3 h4 h5 h6 h7 h8
  push_neg at h2 h3 h4 h5
  unfold field_value_for_type_at_offset
  split <;> first | rfl | (exfalso; simp_all)

theorem field_value_of_find {R : Type} (cv : Conv R) (bo : ByteOrder) (h : MsgHandler)
    (msg : Msg) (label : String) (ret : R) (e : format_field_info)
    (hfind : find_field_info h label = some e) (hoff : e.offset ≠ 0) :
    field_value cv bo h msg label ret =
      match field_value_for_type_at_offset cv bo msg e.type e.offset ret with
      | .returned _ ret1 => .returned true ret1
      | .exited status ret1 => .exited status ret1 := by
  unfold field_value
  simp only [hfind, hoff, if_false]

theorem load_congr (bo : ByteOrder) (m1 m2 : Msg) (width : Nat) :
    ∀ offset, (∀ i, offset ≤ i → i < offset + width → m1 i = m2 i) →
      load bo m1 offset width = load bo m2 offset width := by
  induction width with
  | zero => intro offset _; cases bo <;> rfl
  | succ n ih =>
    intro offset hagree
    have h0 : m1 offset = m2 offset := hagree offset (le_refl _) (by omega)
    have hrest := ih (offset + 1) (fun i h1 h2 => hagree i (by omega) (by omega))
    cases bo
    · simp only [load, load_le] at hrest ⊢
      rw [h0, hrest]
    · simp only [load, load_be] at hrest ⊢
      rw [h0, hrest]

theorem reinterpret_congr (bo : ByteOrder) (m1 m2 : Msg) (offset : Nat) (nt : NativeType)
    (hagree : ∀ i, offset ≤ i → i < offset + nt.width → m1 i = m2 i) :
    reinterpret bo m1 offset nt = reinterpret bo m2 offset nt := by
  cases nt <;> simp only [reinterpret, NativeType.width] at hagree ⊢ <;>
    rw [load_congr bo m1 m2 _ offset hagree]

theorem native_type_bits (type : Char) (nt : NativeType)
    (hty : native_type type = some nt) : 8 * nt.width = nt.bits ∧ 0 < nt.width := by
  unfold native_type at hty
  split_ifs at hty <;> simp only [Option.some.injEq] at hty <;> subst hty <;>
    simp [NativeType.width, NativeType.bits]

theorem to_signed_emod (bits w v : Nat) (hw : w ≤ bits) :
    to_signed bits v % (2 : Int) ^ w = (v : Int) % 2 ^ w := by
  unfold to_signed
  split_ifs
  · rfl
  · have hpow : (2 : Int) ^ bits = 2 ^ w * 2 ^ (bits - w) := by
      rw [← pow_add, Nat.add_sub_cancel' hw]
    rw [hpow, sub_eq_add_neg, ← mul_neg, Int.add_mul_emod_self_left]

theorem store_at (bo : ByteOrder) (msg : Msg) (offset width v k : Nat) (hk : k < width) :
    store bo msg offset width v (offset + k) = byte_of bo width v k := by
  unfold store
  rw [if_pos ⟨by omega, by omega⟩, Nat.add_sub_cancel_left]

theorem load_store_four (bo : ByteOrder) (msg : Msg) (offset b : Nat) (hb : b < 2 ^ 32) :
    load bo (store bo msg offset 4 b) offset 4 = b := by
  have h0 := store_at bo msg offset 4 b 0 (by omega)
  have h1 := store_at bo msg offset 4 b 1 (by omega)
  have h2 := store_at bo msg offset 4 b 2 (by omega)
  have h3 := store_at bo msg offset 4 b 3 (by omega)
  rw [Nat.add_zero] at h0
  cases bo
  · simp only [load, load_le, Nat.add_assoc, h0, h1, h2, h3, byte_of, Fin.ofNat]
    norm_num
    omega
  · simp only [load, load_be, Nat.add_assoc, h0, h1, h2, h3, byte_of, Fin.ofNat]
    norm_num
    omega

theorem walk_fields_packed (size_for_type : Char → Nat) :
    ∀ (labels : List String) (types : List Char) (lengths : List Nat) (offset : Nat)
      (h : MsgHandler),
      types.length = labels.length → lengths.length = labels.length →
      (∀ t ∈ types, size_for_type t ≠ 0) →
      walk_fields size_for_type labels types lengths offset h
        = .ok ⟨h.field_info ++ packed_entries labels types lengths offset⟩ := by
  intro labels
  induction labels with
  | nil =>
    intro types lengths offset h _ _ _
    cases types <;> cases lengths <;> simp [walk_fields, packed_entries]
  | cons label labels ih =>
    intro types lengths offset h ht hl hreg
    cases types with
    | nil => simp at ht
    | cons type types =>
      cases lengths with
      | nil => simp at hl
      | cons length lengths =>
        have hne : size_for_type type ≠ 0 := hreg type (by simp)
        simp only [walk_fields, hne, if_false, packed_entries]
        rw [ih types lengths (offset + length) _ (by simpa using ht) (by simpa using hl)
          (fun t ht => hreg t (by simp [ht]))]
        simp [add_field]

theorem walk_fields_length (size_for_type : Char → Nat) :
    ∀ (labels : List String) (types : List Char) (lengths : List Nat) (offset : Nat)
      (h h1 : MsgHandler),
      walk_fields size_for_type labels types lengths offset h = .ok h1 →
      h1.field_info.length = h.field_info.length + labels.length := by
  intro labels
  induction labels with
  | nil =>
    intro types lengths offset h h1 hok
    simp only [walk_fields, Except.ok.injEq] at hok
    subst hok
    simp
  | cons label labels ih =>
    intro types lengths offset h h1 hok
    cases types with
    | nil => simp [walk_fields] at hok
    | cons type types =>
      cases lengths with
      | nil => simp [walk_fields] at hok
      | cons length lengths =>
        simp only [walk_fields] at hok
        split_ifs at hok
        have := ih types lengths _ _ h1 hok
        simp only [add_field, List.length_append, List.length_singleton,
          List.length_cons, List.length_nil] at this ⊢
        omega

theorem packed_entries_labels :
    ∀ (labels : List String) (types : List Char) (lengths : List Nat) (offset : Nat),
      types.length = labels.length → lengths.length = labels.length →
      (packed_entries labels types lengths offset).map (fun e => e.label) = labels := by
  intro labels
  induction labels with
  | nil => intro types lengths offset _ _; simp [packed_entries]
  | cons label labels ih =>
    intro types lengths offset ht hl
    cases types with
    | nil => simp at ht
    | cons type types =>
      cases lengths with
      | nil => simp at hl
      | cons length lengths =>
        simp only [packed_entries, List.map_cons]
        rw [ih types lengths _ (by simpa using ht) (by simpa using hl)]

theorem packed_entries_offset :
    ∀ (labels : List String) (types : List Char) (lengths : List Nat) (offset i : Nat)
      (e : format_field_info),
      (packed_entries labels types lengths offset).get? i = some e →
      e.offset = (offset + (lengths.take i).sum) % 256 := by
  intro labels
  induction labels with
  | nil => intro types lengths offset i e hget; simp [packed_entries] at hget
  | cons label labels ih =>
    intro types lengths offset i e hget
    cases types with
    | nil => simp [packed_entries] at hget
    | cons type types =>
      cases lengths with
      | nil => simp [packed_entries] at hget
      | cons length lengths =>
        cases i with
        | zero =>
          simp only [packed_entries, List.get?_cons_zero, Option.some.injEq] at hget
          subst hget
          simp
        | succ i =>
          simp only [packed_entries, List.get?_cons_succ] at hget
          rw [ih types lengths (offset + length) i e hget]
          simp [List.take, Nat.add_assoc]

/-! ## The claims -/

/-- C1: if the label matches no field entry, or the entry it matches has stored
offset 0, then `field_value` returns false and leaves `ret` unchanged; the
outcome is a return, never the fatal exit, whatever the type code of the
entry is (the dispatch is not entered). -/
theorem field_value_absent {R : Type} (cv : Conv R) (bo : ByteOrder) (h : MsgHandler)
    (msg : Msg) (label : String) (ret : R)
    (habsent : (∀ e ∈ h.field_info, e.label ≠ label) ∨
      (∃ e, find_field_info h label = some e ∧ e.offset = 0)) :
    field_value cv bo h msg label ret = .returned false ret := by
  unfold field_value
  rcases habsent with hno | ⟨e, hfind, hoff⟩
  · rw [find_field_info_none h label hno]
  · simp only [hfind, hoff, if_true]

/-- Witness of C1: an entry with offset 0 and a type code outside the dispatch
set, and a label that is in no entry. -/
theorem field_value_absent_witness :
    ((∀ e ∈ (MsgHandler.mk [⟨"A", 'B', 3, 1⟩, ⟨"Gone", '?', 0, 1⟩]).field_info,
        e.label ≠ "Missing") ∨
      (∃ e, find_field_info ⟨[⟨"A", 'B', 3, 1⟩, ⟨"Gone", '?', 0, 1⟩]⟩ "Missing" = some e
        ∧ e.offset = 0)) ∧
    field_value (to_unsigned 8 (fun _ => 0)) .little
      ⟨[⟨"A", 'B', 3, 1⟩, ⟨"Gone", '?', 0, 1⟩]⟩ zero_msg "Missing" 7 = .returned false 7 ∧
    field_value (to_unsigned 8 (fun _ => 0)) .little
      ⟨[⟨"A", 'B', 3, 1⟩, ⟨"Gone", '?', 0, 1⟩]⟩ zero_msg "Gone" 7 = .returned false 7 :=
  ⟨Or.inl (by decide),
   field_value_absent _ _ _ _ _ _ (Or.inl (by decide)),
   field_value_absent _ _ _ _ _ _ (Or.inr ⟨⟨"Gone", '?', 0, 1⟩, by decide, rfl⟩)⟩

/-- C2: for a label that matches a field entry with non-zero offset and a
handled type code, `field_value` returns true and sets `ret` to the bytes at
that offset reinterpreted in the native type of the code and converted to
`R`. -/
theorem field_value_present {R : Type} (cv : Conv R) (bo : ByteOrder) (h : MsgHandler)
    (msg : Msg) (label : String) (ret : R) (e : format_field_info) (nt : NativeType)
    (hfind : find_field_info h label = some e) (hoff : e.offset ≠ 0)
    (hty : native_type e.type = some nt) :
    field_value cv bo h msg label ret
      = .returned true (cv.convert (reinterpret bo msg e.offset nt)) := by
  rw [field_value_of_find cv bo h msg label ret e hfind hoff,
    dispatch_handled cv bo msg e.type e.offset ret nt hty]

/-- Witness of C2, the GPS scenario: the table built from the descriptor with
type codes "BIHBcLLeeEB" has "Lat" as its sixth entry, of type L at offset
3 + 1 + 4 + 2 + 1 + 2 = 13, and reading "Lat" as `int32_t` returns the signed
32-bit value stored there. -/
theorem field_value_present_witness :
    parse_format_fields dataflash_sizes 3 gps_format = .ok gps_handler ∧
    gps_handler.field_info.get? 5 = some ⟨"Lat", 'L', 13, 4⟩ ∧
    find_field_info gps_handler "Lat" = some ⟨"Lat", 'L', 13, 4⟩ ∧
    (13 : Nat) ≠ 0 ∧ native_type 'L' = some (.signed 32) ∧
    field_value (to_int 32 (fun _ => 0)) .little gps_handler
      (store .little zero_msg 13 4 3941334676) "Lat" 0 = .returned true (-353632620) :=
  ⟨rfl, by decide, by decide, by decide, by decide,
   field_value_present (to_int 32 (fun _ => 0)) .little gps_handler
     (store .little zero_msg 13 4 3941334676) "Lat" 0 ⟨"Lat", 'L', 13, 4⟩ (.signed 32)
     (by decide) (by decide) (by decide)⟩

/-- C3: `require_field` agrees with `field_value`.  When `field_value` returns
true, `require_field` returns with exactly the `ret` that `field_value`
produced; when `field_value` returns false, `ret` is unchanged and the outcome
of `require_field` is that of the call `field_not_found(msg, label)` with that
same label. -/
theorem require_field_agrees {R : Type} (cv : Conv R) (bo : ByteOrder)
    (fnf : Msg → String → Option Nat) (h : MsgHandler) (msg : Msg) (label : String)
    (ret : R) :
    (∀ r, field_value cv bo h msg label ret = .returned true r →
      require_field cv bo fnf h msg label ret = .returned () r) ∧
    (∀ r, field_value cv bo h msg label ret = .returned false r →
      r = ret ∧
      require_field cv bo fnf h msg label ret = call_field_not_found fnf msg label ret) := by
  refine ⟨fun r hr => ?_, fun r hr => ?_⟩
  · simp [require_field, hr]
  · have hret : r = ret := by
      unfold field_value at hr
      split at hr
      · cases hr; rfl
      · dsimp only at hr
        split_ifs at hr
        · cases hr; rfl
        · split at hr <;> cases hr
    subst hret
    exact ⟨rfl, by simp [require_field, hr]⟩

/-- Instance of C3 on the GPS table, with a `field_not_found` that ends the
process in `exit(1)`: a present field and an absent one. -/
theorem require_field_agrees_witness :
    (field_value (to_unsigned 8 (fun _ => 0)) .little gps_handler
        (store .little zero_msg 10 1 9) "NSats" 0 = .returned true 9 ∧
      require_field (to_unsigned 8 (fun _ => 0)) .little (fun _ _ => some 1) gps_handler
        (store .little zero_msg 10 1 9) "NSats" 0 = .returned () 9) ∧
    (field_value (to_unsigned 8 (fun _ => 0)) .little gps_handler
        (store .little zero_msg 10 1 9) "Roll" 5 = .returned false 5 ∧
      require_field (to_unsigned 8 (fun _ => 0)) .little (fun _ _ => some 1) gps_handler
        (store .little zero_msg 10 1 9) "Roll" 5 = .exited 1 5) :=
  ⟨⟨by decide,
    (require_field_agrees (to_unsigned 8 (fun _ => 0)) .little (fun _ _ => some 1)
      gps_handler (store .little zero_msg 10 1 9) "NSats" 0).1 9 (by decide)⟩,
   ⟨by decide,
    ((require_field_agrees (to_unsigned 8 (fun _ => 0)) .little (fun _ _ => some 1)
      gps_handler (store .little zero_msg 10 1 9) "Roll" 5).2 5 (by decide)).2⟩⟩

/-- C4 fails as stated: a record buffer of 4 bytes and a field of type I (4
bytes) at offset 3, so that offset plus width is 7.  The accessor returns true,
not an error, and its value changes with the memory that follows the buffer:
it has read the bytes at 4, 5 and 6, outside the buffer. -/
theorem field_value_reads_beyond_buffer :
    ([0, 0, 0, 0] : List (Fin 256)).length < 3 + native_width 'I' ∧
    field_value (to_unsigned 32 (fun _ => 0)) .little ⟨[⟨"F", 'I', 3, 4⟩]⟩
      (view [0, 0, 0, 0] (fun _ => 0)) "F" 9 = .returned true 0 ∧
    field_value (to_unsigned 32 (fun _ => 0)) .little ⟨[⟨"F", 'I', 3, 4⟩]⟩
      (view [0, 0, 0, 0] (fun _ => 1)) "F" 9 = .returned true 16843008 := by
  decide

/-- C4 as amended: the accessor takes no buffer length and checks no bound.
For a record buffer of any length followed by any memory, a found field with
non-zero offset and handled type code that does not fit in the buffer is read
all the same: `field_value` returns true with the value of the bytes at
offset .. offset + width - 1 of what the pointer addresses. -/
theorem field_value_unchecked {R : Type} (cv : Conv R) (bo : ByteOrder) (h : MsgHandler)
    (record : List (Fin 256)) (beyond : Nat → Fin 256) (label : String) (ret : R)
    (e : format_field_info) (nt : NativeType)
    (hfind : find_field_info h label = some e) (hoff : e.offset ≠ 0)
    (hty : native_type e.type = some nt)
    (hover : record.length < e.offset + nt.width) :
    field_value cv bo h (view record beyond) label ret
      = .returned true (cv.convert (reinterpret bo (view record beyond) e.offset nt)) ∧
    ∃ i, e.offset ≤ i ∧ i < e.offset + nt.width ∧ record.length ≤ i ∧
      view record beyond i = beyond (i - record.length) := by
  refine ⟨?_, e.offset + nt.width - 1, ?_⟩
  · rw [field_value_of_find cv bo h (view record beyond) label ret e hfind hoff,
      dispatch_handled cv bo (view record beyond) e.type e.offset ret nt hty]
  · have hw : 0 < nt.width := by
      unfold native_type at hty
      split_ifs at hty <;> simp only [Option.some.injEq] at hty <;> subst hty <;>
        simp [NativeType.width]
    refine ⟨by omega, by omega, by omega, ?_⟩
    unfold view
    rw [dif_neg (by omega)]

/-- Witness of the amended C4: the 4-byte buffer with a 4-byte field at
offset 3. -/
theorem field_value_unchecked_witness :
    find_field_info ⟨[⟨"F", 'I', 3, 4⟩]⟩ "F" = some ⟨"F", 'I', 3, 4⟩ ∧
    ([0, 0, 0, 0] : List (Fin 256)).length < 3 + (NativeType.unsigned 32).width ∧
    field_value (to_unsigned 32 (fun _ => 0)) .little ⟨[⟨"F", 'I', 3, 4⟩]⟩
      (view [0, 0, 0, 0] (fun _ => 1)) "F" 9
      = .returned true ((to_unsigned 32 (fun _ => 0)).convert
          (reinterpret .little (view [0, 0, 0, 0] (fun _ => 1)) 3 (.unsigned 32))) :=
  ⟨by decide, by decide,
   (field_value_unchecked (to_unsigned 32 (fun _ => 0)) .little ⟨[⟨"F", 'I', 3, 4⟩]⟩
     [0, 0, 0, 0] (fun _ => 1) "F" 9 ⟨"F", 'I', 3, 4⟩ (.unsigned 32)
     (by decide) (by decide) (by decide) (by decide)).1⟩

/-- C5: the dispatch ends in the fatal exit exactly on the type codes outside
the twelve handled ones; on such a code `ret` keeps its value, and on each
handled code `ret` is assigned a value that does not depend on what it held. -/
theorem dispatch_fatal_iff {R : Type} (cv : Conv R) (bo : ByteOrder) (msg : Msg)
    (type : Char) (offset : Nat) (ret : R) :
    ((∃ status r, field_value_for_type_at_offset cv bo msg type offset ret
        = .exited status r) ↔ type ∉ handled_types) ∧
    (type ∉ handled_types →
      field_value_for_type_at_offset cv bo msg type offset ret = .exited 1 ret) ∧
    (type ∈ handled_types → ∃ v, ∀ ret0 : R,
      field_value_for_type_at_offset cv bo msg type offset ret0 = .returned () v) := by
  have hout : type ∉ handled_types →
      field_value_for_type_at_offset cv bo msg type offset ret = .exited 1 ret := by
    intro hnot
    apply dispatch_unhandled
    cases hnt : native_type type with
    | none => rfl
    | some nt => exact absurd ((native_type_handled type).2 ⟨nt, hnt⟩) hnot
  have hin : type ∈ handled_types → ∃ v, ∀ ret0 : R,
      field_value_for_type_at_offset cv bo msg type offset ret0 = .returned () v := by
    intro hmem
    obtain ⟨nt, hnt⟩ := (native_type_handled type).1 hmem
    exact ⟨_, fun ret0 => dispatch_handled cv bo msg type offset ret0 nt hnt⟩
  refine ⟨⟨?_, fun hnot => ⟨1, ret, hout hnot⟩⟩, hout, hin⟩
  rintro ⟨status, r, hex⟩ hmem
  obtain ⟨v, hv⟩ := hin hmem
  rw [hv ret] at hex
  cases hex

/-- C6: narrowing truncates modulo the target width.  For a field with an
integer type code read into an unsigned target of `w` bits, `field_value`
returns the native integer value of the field reduced modulo `2 ^ w`; when
the target is no wider than the field, that is the low `w` bits of the stored
two's-complement pattern. -/
theorem field_value_narrowing (w : Nat) (of_float : Nat → Nat) (bo : ByteOrder)
    (h : MsgHandler) (msg : Msg) (label : String) (ret : Nat) (e : format_field_info)
    (nt : NativeType)
    (hfind : find_field_info h label = some e) (hoff : e.offset ≠ 0)
    (hty : native_type e.type = some nt) (hint : nt ≠ .float32) :
    field_value (to_unsigned w of_float) bo h msg label ret
      = .returned true (native_int bo msg e.offset nt % 2 ^ w).toNat ∧
    (w ≤ nt.bits →
      (native_int bo msg e.offset nt % 2 ^ w).toNat
        = load bo msg e.offset nt.width % 2 ^ w) := by
  obtain ⟨hbits, _⟩ := native_type_bits e.type nt hty
  constructor
  · rw [field_value_of_find _ bo h msg label ret e hfind hoff,
      dispatch_handled _ bo msg e.type e.offset ret nt hty]
    cases nt with
    | float32 => exact absurd rfl hint
    | unsigned bits => rfl
    | signed bits => rfl
  · intro hw
    have hcast : ∀ v : Nat, ((v : Int) % 2 ^ w).toNat = v % 2 ^ w := by
      intro v
      have : ((v : Int) % 2 ^ w) = ((v % 2 ^ w : Nat) : Int) := by push_cast; rfl
      rw [this, Int.toNat_ofNat]
    cases nt with
    | float32 => exact absurd rfl hint
    | unsigned bits =>
      simp only [native_int, reinterpret, NativeType.width]
      exact hcast _
    | signed bits =>
      simp only [native_int, reinterpret, NativeType.width]
      simp only [NativeType.bits] at hw
      rw [to_signed_emod bits w _ hw]
      exact hcast _

/-- Witness of C6: a 32-bit field holding 300, read as `uint8_t`, gives 44. -/
theorem field_value_narrowing_witness :
    find_field_info gps_handler "TimeMS" = some ⟨"TimeMS", 'I', 4, 4⟩ ∧
    native_int .little (store .little zero_msg 4 4 300) 4 (.unsigned 32) = 300 ∧
    field_value (to_unsigned 8 (fun _ => 0)) .little gps_handler
      (store .little zero_msg 4 4 300) "TimeMS" 0 = .returned true 44 :=
  ⟨by decide, by decide,
   (field_value_narrowing 8 (fun _ => 0) .little gps_handler
     (store .little zero_msg 4 4 300) "TimeMS" 0 ⟨"TimeMS", 'I', 4, 4⟩ (.unsigned 32)
     (by decide) (by decide) (by decide) (by decide)).1⟩

/-- C7: float round trip.  For a 32-bit pattern `b` and a field entry of type f
with non-zero offset, once the four bytes of `b` are stored in the record at
the offset of the field, `field_value<float>` returns true and the float it
returns has bit pattern `b`. -/
theorem field_value_float_roundtrip (of_int : Int → Nat) (bo : ByteOrder) (h : MsgHandler)
    (msg : Msg) (label : String) (ret : Nat) (e : format_field_info) (b : Nat)
    (hfind : find_field_info h label = some e) (hoff : e.offset ≠ 0)
    (hty : e.type = 'f') (hb : b < 2 ^ 32) :
    field_value (to_float of_int) bo h (store bo msg e.offset 4 b) label ret
      = .returned true b := by
  rw [field_value_of_find _ bo h _ label ret e hfind hoff, hty]
  simp only [field_value_for_type_at_offset, read_float, to_float]
  rw [load_store_four bo msg e.offset b hb]

/-- Witness of C7: the pattern 0x7FA00001 of a signalling NaN, in either byte
order. -/
theorem field_value_float_roundtrip_witness :
    find_field_info ⟨[⟨"Roll", 'f', 3, 4⟩]⟩ "Roll" = some ⟨"Roll", 'f', 3, 4⟩ ∧
    (2141192193 : Nat) < 2 ^ 32 ∧
    field_value (to_float (fun _ => 0)) .big ⟨[⟨"Roll", 'f', 3, 4⟩]⟩
      (store .big zero_msg 3 4 2141192193) "Roll" 0 = .returned true 2141192193 :=
  ⟨by decide, by decide,
   field_value_float_roundtrip (fun _ => 0) .big ⟨[⟨"Roll", 'f', 3, 4⟩]⟩ zero_msg "Roll" 0
     ⟨"Roll", 'f', 3, 4⟩ 2141192193 (by decide) (by decide) rfl (by decide)⟩

/-- C8 fails as stated: with a 3-byte preamble, the first nine fields of this
ten-field descriptor (all of registered type, lengths those of the types) take
253 bytes, so the packed offset of the tenth field is 256; the offset recorded
for it is 0, and the accessor reports the field as absent. -/
theorem recorded_offset_wraps_to_zero :
    (split_labels wide_format.labels).length = 10 ∧
    (∀ t ∈ wide_format.type_codes.toList, dataflash_sizes t ≠ 0) ∧
    wide_format.field_lengths = wide_format.type_codes.toList.map dataflash_sizes ∧
    3 + (wide_format.field_lengths.take 9).sum = 256 ∧
    ∃ h, parse_format_fields dataflash_sizes 3 wide_format = .ok h ∧
      h.field_info.get? 9 = some ⟨"C", 'B', 0, 1⟩ ∧
      field_value (to_unsigned 8 (fun _ => 0)) .little h zero_msg "C" 7
        = .returned false 7 :=
  ⟨by decide, by decide, by decide, by decide, _, rfl, by decide, by decide⟩

/-- C8 as amended: for a descriptor with at most 30 fields, as many type codes
and lengths as labels, and only registered type codes, construction succeeds
and the offset recorded in each entry is the preamble size plus the sum of the
byte lengths of all preceding fields, reduced modulo 256 (the offset is held in
8 bits).  When that sum is below 256 the recorded offset is the packed offset
itself, and it is not 0 when the preamble is not empty. -/
theorem recorded_offsets_packed_mod_256 (size_for_type : Char → Nat) (preamble : Nat)
    (d : FormatDescriptor)
    (hcount : (split_labels d.labels).length ≤ LOGREADER_MAX_FIELDS)
    (htypes : d.type_codes.toList.length = (split_labels d.labels).length)
    (hlengths : d.field_lengths.length = (split_labels d.labels).length)
    (hreg : ∀ t ∈ d.type_codes.toList, size_for_type t ≠ 0) :
    ∃ h, parse_format_fields size_for_type preamble d = .ok h ∧
      h.field_info.map (fun e => e.label) = split_labels d.labels ∧
      ∀ i e, h.field_info.get? i = some e →
        e.offset = (preamble + (d.field_lengths.take i).sum) % 256 ∧
        (preamble + (d.field_lengths.take i).sum < 256 →
          e.offset = preamble + (d.field_lengths.take i).sum ∧
          (0 < preamble → e.offset ≠ 0)) := by
  refine ⟨⟨[] ++ packed_entries (split_labels d.labels) d.type_codes.toList
    d.field_lengths preamble⟩, ?_, ?_, ?_⟩
  · unfold parse_format_fields
    rw [if_neg (by omega)]
    exact walk_fields_packed size_for_type _ _ _ preamble ⟨[]⟩ htypes hlengths hreg
  · simp only [List.nil_append]
    exact packed_entries_labels _ _ _ preamble htypes hlengths
  · intro i e hget
    simp only [List.nil_append] at hget
    have hoff := packed_entries_offset _ _ _ preamble i e hget
    refine ⟨hoff, fun hlt => ?_⟩
    rw [Nat.mod_eq_of_lt hlt] at hoff
    exact ⟨hoff, fun hp => by omega⟩

/-- Witness of the amended C8: the GPS descriptor with a 3-byte preamble; its
sixth field is recorded at offset 13. -/
theorem recorded_offsets_packed_mod_256_witness :
    (split_labels gps_format.labels).length ≤ LOGREADER_MAX_FIELDS ∧
    gps_format.type_codes.toList.length = (split_labels gps_format.labels).length ∧
    gps_format.field_lengths.length = (split_labels gps_format.labels).length ∧
    (∀ t ∈ gps_format.type_codes.toList, dataflash_sizes t ≠ 0) ∧
    ∃ h, parse_format_fields dataflash_sizes 3 gps_format = .ok h ∧
      h.field_info.map (fun e => e.label) = split_labels gps_format.labels ∧
      ∀ i e, h.field_info.get? i = some e →
        e.offset = (3 + (gps_format.field_lengths.take i).sum) % 256 ∧
        (3 + (gps_format.field_lengths.take i).sum < 256 →
          e.offset = 3 + (gps_format.field_lengths.take i).sum ∧
          (0 < 3 → e.offset ≠ 0)) :=
  ⟨by decide, by decide, by decide, by decide,
   recorded_offsets_packed_mod_256 dataflash_sizes 3 gps_format
     (by decide) (by decide) (by decide) (by decide)⟩

/-- C9: construction enforces the capacity of 30 entries.  A descriptor with
more than 30 labels fails with a configuration error; a table that is built
has one entry for each label and at most 30 entries; and a descriptor with at
most 30 fields, as many type codes and lengths as labels, and only registered
type codes is built, its labels in order. -/
theorem parse_format_fields_capacity (size_for_type : Char → Nat) (preamble : Nat)
    (d : FormatDescriptor) :
    (LOGREADER_MAX_FIELDS < (split_labels d.labels).length →
      parse_format_fields size_for_type preamble d = .error .ConfigurationError) ∧
    (∀ h, parse_format_fields size_for_type preamble d = .ok h →
      h.next_field = (split_labels d.labels).length ∧
      h.next_field ≤ LOGREADER_MAX_FIELDS) ∧
    ((split_labels d.labels).length ≤ LOGREADER_MAX_FIELDS →
      d.type_codes.toList.length = (split_labels d.labels).length →
      d.field_lengths.length = (split_labels d.labels).length →
      (∀ t ∈ d.type_codes.toList, size_for_type t ≠ 0) →
      ∃ h, parse_format_fields size_for_type preamble d = .ok h ∧
        h.field_info.map (fun e => e.label) = split_labels d.labels) := by
  refine ⟨fun hmany => ?_, fun h hok => ?_, fun hcount htypes hlengths hreg => ?_⟩
  · unfold parse_format_fields
    rw [if_pos hmany]
  · unfold parse_format_fields at hok
    split_ifs at hok with hmany
    have hlen := walk_fields_length size_for_type _ _ _ preamble ⟨[]⟩ h hok
    simp only [List.length_nil, Nat.zero_add] at hlen
    unfold MsgHandler.next_field
    exact ⟨hlen, by omega⟩
  · refine ⟨⟨[] ++ packed_entries (split_labels d.labels) d.type_codes.toList
      d.field_lengths preamble⟩, ?_, ?_⟩
    · unfold parse_format_fields
      rw [if_neg (by omega)]
      exact walk_fields_packed size_for_type _ _ _ preamble ⟨[]⟩ htypes hlengths hreg
    · simp only [List.nil_append]
      exact packed_entries_labels _ _ _ preamble htypes hlengths

/-- Instance of C9: the descriptor with exactly 31 labels fails, and the GPS
descriptor with 11 is built. -/
theorem parse_format_fields_capacity_witness :
    (split_labels long_format.labels).length = 31 ∧
    parse_format_fields dataflash_sizes 3 long_format = .error .ConfigurationError ∧
    ∃ h, parse_format_fields dataflash_sizes 3 gps_format = .ok h ∧
      h.field_info.map (fun e => e.label) = split_labels gps_format.labels :=
  ⟨by decide,
   (parse_format_fields_capacity dataflash_sizes 3 long_format).1 (by decide),
   (parse_format_fields_capacity dataflash_sizes 3 gps_format).2.2
     (by decide) (by decide) (by decide) (by decide)⟩

/-- C10: what `field_value` returns depends only on the type code and offset
of the matched entry and on the bytes of the record at offset .. offset + w - 1,
with `w` the native width of the type code.  Two records that agree on those
bytes, looked up through two entries with the same type and offset, whatever
their stored lengths, give the same result and the same value. -/
theorem field_value_depends_on_field_bytes {R : Type} (cv : Conv R) (bo : ByteOrder)
    (h1 h2 : MsgHandler) (m1 m2 : Msg) (label : String) (ret : R)
    (e1 e2 : format_field_info)
    (hfind1 : find_field_info h1 label = some e1)
    (hfind2 : find_field_info h2 label = some e2)
    (htype : e1.type = e2.type) (hoffset : e1.offset = e2.offset)
    (hbytes : ∀ i, e1.offset ≤ i → i < e1.offset + native_width e1.type → m1 i = m2 i) :
    field_value cv bo h1 m1 label ret = field_value cv bo h2 m2 label ret := by
  by_cases hoff : e1.offset = 0
  · have hoff2 : e2.offset = 0 := by rw [← hoffset]; exact hoff
    simp only [field_value, hfind1, hfind2, hoff, hoff2, if_true]
  · have hoff2 : e2.offset ≠ 0 := by rw [← hoffset]; exact hoff
    rw [field_value_of_find cv bo h1 m1 label ret e1 hfind1 hoff,
      field_value_of_find cv bo h2 m2 label ret e2 hfind2 hoff2, ← htype, ← hoffset]
    cases hnt : native_type e1.type with
    | none =>
      rw [dispatch_unhandled cv bo m1 e1.type e1.offset ret hnt,
        dispatch_unhandled cv bo m2 e1.type e1.offset ret hnt]
    | some nt =>
      simp only [native_width, hnt] at hbytes
      rw [dispatch_handled cv bo m1 e1.type e1.offset ret nt hnt,
        dispatch_handled cv bo m2 e1.type e1.offset ret nt hnt,
        reinterpret_congr bo m1 m2 e1.offset nt hbytes]

/-- Witness of C10: two tables whose entries differ only in the stored length,
and two records that agree on the bytes 13 .. 16 and differ elsewhere. -/
theorem field_value_depends_on_field_bytes_witness :
    find_field_info ⟨[⟨"Lat", 'L', 13, 4⟩]⟩ "Lat" = some ⟨"Lat", 'L', 13, 4⟩ ∧
    find_field_info ⟨[⟨"Lat", 'L', 13, 200⟩]⟩ "Lat" = some ⟨"Lat", 'L', 13, 200⟩ ∧
    store .little zero_msg 13 4 77 3 ≠ store .little (fun _ => 9) 13 4 77 3 ∧
    field_value (to_int 32 (fun _ => 0)) .little ⟨[⟨"Lat", 'L', 13, 4⟩]⟩
        (store .little zero_msg 13 4 77) "Lat" 0
      = field_value (to_int 32 (fun _ => 0)) .little ⟨[⟨"Lat", 'L', 13, 200⟩]⟩
        (store .little (fun _ => 9) 13 4 77) "Lat" 0 :=
  ⟨by decide, by decide, by decide,
   field_value_depends_on_field_bytes (to_int 32 (fun _ => 0)) .little
     ⟨[⟨"Lat", 'L', 13, 4⟩]⟩ ⟨[⟨"Lat", 'L', 13, 200⟩]⟩
     (store .little zero_msg 13 4 77) (store .little (fun _ => 9) 13 4 77) "Lat" 0
     ⟨"Lat", 'L', 13, 4⟩ ⟨"Lat", 'L', 13, 200⟩ (by decide) (by decide) rfl rfl
     (by
       intro i h1 h2
       have h3 : i < 13 + 4 := h2
       simp only [store]
       rw [if_pos ⟨h1, h3⟩, if_pos ⟨h1, h3⟩])⟩

end Replay
